import Mathlib

/-!
Verification development for the CineFlix download-aggregation pipeline,
a shallow embedding of `src/services/movieService.ts` (the functions
`parseTorrentName`, `cleanImdbId` and `fetchMovieDownloads`).

Modelling conventions:
* JavaScript strings are `String` (lists of characters); the only string
  values the pipeline inspects are ASCII, and the case-insensitive regex
  matches of the source (no `u` flag, ASCII-only patterns) coincide with
  ASCII case folding (`lcChar`/`ucChar`).
* Each adapter's network + JSON-parse step is an environment value of type
  `Except Unit R`: `Except.error ()` is any network, parse or shape error
  (the source catches these inside the adapter's async body and returns
  the empty list), `Except.ok r` a parsed response.  Numeric wire fields
  are carried after the source's `parseInt` as `Int`.
* `Promise.allSettled` + the fulfilled-only collection loop of the source
  is `collectSettled` over a list of `Settled` outcomes; every adapter
  promise settles fulfilled because of its internal catch.
* `Array.prototype.sort` with the consistent comparator
  `(a, b) => b.seeds - a.seeds` is, per the ECMAScript specification,
  the unique stable reordering that is sorted by descending `seeds`;
  `sortDesc` (stable insertion sort) realizes exactly that order.
* `Number.prototype.toFixed(d)` on `bytes / 2^20` or `bytes / 2^30` is
  modelled as exact rational rounding (`jsToFixed d num den`); for
  integer byte counts below 2^53 the source's float quotient is exact,
  so this coincides with the float semantics.  `toFixed` picks the
  integer nearest to `|x| * 10^d`, ties toward the larger value, and
  restores the sign.
* `Date.prototype.toDateString` depends on the host time zone, so it is
  an environment-supplied function `fmtDate`.
-/

namespace CineFlix

/-! ### ASCII case folding and segment matching -/

/-- ASCII lower-casing, the case folding a JavaScript case-insensitive
regex without the `u` flag performs on ASCII-only patterns. -/
def lcChar (c : Char) : Char :=
  if 'A' ≤ c ∧ c ≤ 'Z' then Char.ofNat (c.toNat + 32) else c

/-- ASCII upper-casing, `String.prototype.toUpperCase` on ASCII data. -/
def ucChar (c : Char) : Char :=
  if 'a' ≤ c ∧ c ≤ 'z' then Char.ofNat (c.toNat - 32) else c

/-- Does the pattern match at the head of the text (exact characters)? -/
def segAt : List Char → List Char → Bool
  | [], _ => true
  | _ :: _, [] => false
  | p :: ps, c :: cs => (p == c) && segAt ps cs

/-- Does the pattern match at the head of the text, case-insensitively? -/
def segAtCI : List Char → List Char → Bool
  | [], _ => true
  | _ :: _, [] => false
  | p :: ps, c :: cs => (lcChar p == lcChar c) && segAtCI ps cs

/-- Does the pattern occur as a contiguous segment of the text? -/
def containsSeg (p : List Char) : List Char → Bool
  | [] => segAt p []
  | c :: cs => segAt p (c :: cs) || containsSeg p cs

/-- Does the string end with the given suffix?  (Statement-side helper
for the theorems below, not a translation of source code.) -/
def strEndsWith (s suffix : String) : Bool :=
  segAt suffix.data.reverse s.data.reverse

/-! ### JavaScript primitives used by the pipeline -/

/-- The code points `String.prototype.trim` removes (WhiteSpace and
LineTerminator of the ECMAScript specification). -/
def jsWhitespaceCodes : List Nat :=
  [0x09, 0x0A, 0x0B, 0x0C, 0x0D, 0x20, 0xA0, 0x1680,
   0x2000, 0x2001, 0x2002, 0x2003, 0x2004, 0x2005, 0x2006, 0x2007,
   0x2008, 0x2009, 0x200A, 0x2028, 0x2029, 0x202F, 0x205F, 0x3000, 0xFEFF]

def jsWhitespace (c : Char) : Bool := jsWhitespaceCodes.contains c.toNat

/-- `String.prototype.trim`. -/
def jsTrim (s : String) : String :=
  String.mk (((s.data.dropWhile jsWhitespace).reverse.dropWhile jsWhitespace).reverse)

/-- `s.replace('tt', '')`: remove the first occurrence of `"tt"`. -/
def replaceFirstTT : List Char → List Char
  | [] => []
  | 't' :: 't' :: rest => rest
  | c :: rest => c :: replaceFirstTT rest

/-- `const cleanImdbId = (id?: string) => id ? id.replace('tt', '') : null;`
(`none` is both `undefined` and `null`; the empty string is falsy). -/
def cleanImdbId (id : Option String) : Option String :=
  match id with
  | some s => if s != "" then some (String.mk (replaceFirstTT s.data)) else none
  | none => none

def uriHexChar (n : Nat) : Char :=
  if n < 10 then Char.ofNat (48 + n) else Char.ofNat (55 + n)

def pctEncodeByte (b : Nat) : List Char :=
  ['%', uriHexChar (b / 16), uriHexChar (b % 16)]

/-- UTF-8 bytes of a code point. -/
def utf8Bytes (u : Nat) : List Nat :=
  if u < 128 then [u]
  else if u < 2048 then [192 + u / 64, 128 + u % 64]
  else if u < 65536 then [224 + u / 4096, 128 + u / 64 % 64, 128 + u % 64]
  else [240 + u / 262144, 128 + u / 4096 % 64, 128 + u / 64 % 64, 128 + u % 64]

/-- The characters `encodeURIComponent` leaves unescaped. -/
def uriUnreservedChar (c : Char) : Bool :=
  c.isAlpha || c.isDigit || c == '-' || c == '_' || c == '.' ||
    c == '!' || c == '~' || c == '*' || c == '\'' || c == '(' || c == ')'

/-- `encodeURIComponent`: percent-encode every byte of the UTF-8 form of
each character outside the unreserved set, upper-case hex digits. -/
def encodeURIComponent (s : String) : String :=
  String.mk (s.data.foldr
    (fun c acc =>
      (if uriUnreservedChar c then [c]
       else ((utf8Bytes c.toNat).map pctEncodeByte).flatten) ++ acc) [])

def padZeros (d : Nat) (l : List Char) : List Char :=
  List.replicate (d - l.length) '0' ++ l

/-- `(num / den).toFixed(d)` on the exact rational `num / den` (`den > 0`):
the decimal digit string of the integer nearest to `|num / den| * 10 ^ d`
(ties toward the larger integer), with `d` fractional digits and the sign
restored.  `(2 * |num| * 10 ^ d + den) / (2 * den)` is that nearest
integer, computed with truncating natural division. -/
def jsToFixed (d : Nat) (num : Int) (den : Nat) : String :=
  let sign : String := if num < 0 then "-" else ""
  let n : Nat := (2 * num.natAbs * 10 ^ d + den) / (2 * den)
  if d = 0 then sign ++ toString n
  else sign ++ toString (n / 10 ^ d) ++ "." ++ String.mk (padZeros d (toString (n % 10 ^ d)).data)

/-! ### TitleParser: `parseTorrentName` -/

/-- Alternatives of `/2160p|4k|1080p|720p|480p/i`, in alternation order. -/
def qualityAlts : List (List Char) :=
  ["2160p".data, "4k".data, "1080p".data, "720p".data, "480p".data]

/-- Alternatives of `/bluray|web-dl|webrip|hdrip|dvdrip/i`. -/
def typeAlts : List (List Char) :=
  ["bluray".data, "web-dl".data, "webrip".data, "hdrip".data, "dvdrip".data]

def hevcAlts : List (List Char) := ["x265".data, "hevc".data]

def x264Alts : List (List Char) := ["x264".data]

/-- First match of an alternation of literal patterns, case-insensitively:
scan positions left to right, at each position try the alternatives in
order; return the matching alternative.  (The matched substring of the
text equals the alternative up to ASCII case, so returning the
alternative loses nothing once the result is upper-cased.) -/
def findAlt (alts : List (List Char)) : List Char → Option (List Char)
  | [] => alts.find? (fun a => segAtCI a [])
  | c :: cs =>
    match alts.find? (fun a => segAtCI a (c :: cs)) with
    | some a => some a
    | none => findAlt alts cs

def hasAlt (alts : List (List Char)) (cs : List Char) : Bool :=
  (findAlt alts cs).isSome

/-- `parseTorrentName` of the source: quality and type extraction with
codec suffix, then `toUpperCase()` applied to BOTH result strings (note:
the whole type string, codec suffix included, is upper-cased). -/
def parseTorrentName (name : String) : String × String :=
  let cs := name.data
  let quality : List Char := (findAlt qualityAlts cs).getD "Unknown".data
  let ty : List Char := (findAlt typeAlts cs).getD "WEBRip".data
  let ty2 : List Char :=
    if hasAlt hevcAlts cs then ty ++ " (HEVC)".data
    else if hasAlt x264Alts cs then ty ++ " (x264)".data
    else ty
  (String.mk (quality.map ucChar), String.mk (ty2.map ucChar))

/-! ### The season/episode regex of the episodic adapter -/

/-- `/S(\d+)E(\d+)/i` matched at the head of the text: `S`, a maximal
nonempty digit run, `E`, a nonempty digit run (greedy `\d+` followed by a
non-digit letter needs no backtracking). -/
def matchSEAt : List Char → Option (List Char × List Char)
  | [] => none
  | c :: rest =>
    if c == 'S' || c == 's' then
      let ds := rest.takeWhile Char.isDigit
      if ds.isEmpty then none
      else
        match rest.dropWhile Char.isDigit with
        | e :: rest2 =>
          if e == 'E' || e == 'e' then
            let es := rest2.takeWhile Char.isDigit
            if es.isEmpty then none else some (ds, es)
          else none
        | [] => none
    else none

/-- `cleanQuery.match(/S(\d+)E(\d+)/i)`: leftmost match, returning the two
captured digit runs. -/
def matchSE : List Char → Option (List Char × List Char)
  | [] => none
  | c :: cs =>
    match matchSEAt (c :: cs) with
    | some r => some r
    | none => matchSE cs

/-- `new RegExp('S' + s + 'E' + e, 'i').test(title)`: the literal pattern
(`s`, `e` are digit strings, free of regex metacharacters) occurs in the
title, case-insensitively. -/
def seTest (s e : List Char) (title : String) : Bool :=
  containsSeg (('S' :: s ++ 'E' :: e).map lcChar) (title.data.map lcChar)

/-! ### Data model -/

/-- The `Torrent` candidate shape the service returns (`types.ts`). -/
structure Torrent where
  url : String
  hash : String
  quality : String
  type : String
  seeds : Int
  peers : Int
  size : String
  date_uploaded : String
deriving DecidableEq

/-- One entry of `data.data.movies[0].torrents` of the YTS response. -/
structure YtsEntry where
  url : String
  hash : String
  quality : String
  type : String
  seeds : Int
  peers : Int
  size : String
  date_uploaded : String
deriving DecidableEq

/-- One entry of `data.torrents` of the EZTV response. -/
structure EztvEntry where
  title : String
  magnet_url : String
  hash : String
  seeds : Int
  peers : Int
  size_bytes : Int
  date_released_unix : Int
deriving DecidableEq

/-- One row of the APIBay response (numeric fields after `parseInt`). -/
structure ApibayItem where
  id : String
  info_hash : String
  name : String
  size : Int
  seeders : Int
  leechers : Int
deriving DecidableEq

structure Swarm where
  seeders : Int
  leechers : Int
deriving DecidableEq

/-- One entry of `data.results` of the SolidTorrents response. -/
structure SolidItem where
  title : String
  magnet : String
  infoHash : String
  swarm : Swarm
  size : Int
deriving DecidableEq

inductive MediaKind where
  | movie
  | tv
deriving DecidableEq

/-! ### The four adapters -/

def mkYtsTorrent (t : YtsEntry) : Torrent :=
  { url := t.url, hash := t.hash, quality := t.quality, type := t.type,
    seeds := t.seeds, peers := t.peers, size := t.size,
    date_uploaded := t.date_uploaded }

/-- YTS branch: `data.data?.movies?.[0]?.torrents` present (`Except.ok
(some ts)`) maps fields through directly; an absent chain or a caught
error yields the empty list. -/
def ytsAdapter : Except Unit (Option (List YtsEntry)) → List Torrent
  | Except.error _ => []
  | Except.ok none => []
  | Except.ok (some ts) => ts.map mkYtsTorrent

def mkEztvTorrent (fmtDate : Int → String) (t : EztvEntry) : Torrent :=
  let meta := parseTorrentName t.title
  { url := t.magnet_url, hash := t.hash,
    quality := if meta.1 = "UNKNOWN" then "HD" else meta.1,
    type := meta.2, seeds := t.seeds, peers := t.peers,
    size := jsToFixed 0 t.size_bytes 1048576 ++ " MB",
    date_uploaded := fmtDate (t.date_released_unix * 1000) }

/-- EZTV branch: optional season/episode post-filter from the cleaned
query, then `slice(0, 8)`, then the per-entry mapping. -/
def eztvAdapter (fmtDate : Int → String) (cleanQuery : String) :
    Except Unit (Option (List EztvEntry)) → List Torrent
  | Except.error _ => []
  | Except.ok none => []
  | Except.ok (some torrents) =>
    let results :=
      match matchSE cleanQuery.data with
      | some (s, e) => torrents.filter (fun t : EztvEntry => seTest s e t.title)
      | none => torrents
    (results.take 8).map (mkEztvTorrent fmtDate)

def apibayTrackers : String :=
  "&tr=udp://tracker.coppersurfer.tk:6969/announce&tr=udp://tracker.openbittorrent.com:6969/announce"

def mkApibayTorrent (item : ApibayItem) : Torrent :=
  let meta := parseTorrentName item.name
  { url := "magnet:?xt=urn:btih:" ++ item.info_hash ++ "&dn=" ++
      encodeURIComponent item.name ++ apibayTrackers,
    hash := item.info_hash,
    quality := if meta.1 = "UNKNOWN" then "HD" else meta.1,
    type := meta.2, seeds := item.seeders, peers := item.leechers,
    size := if 1073741824 < item.size then jsToFixed 2 item.size 1073741824 ++ " GB"
      else jsToFixed 2 item.size 1048576 ++ " MB",
    date_uploaded := "Recent" }

/-- APIBay branch: a non-empty array whose first row is not the zero-id
sentinel row contributes `slice(0, 8)` mapped entries. -/
def apibayAdapter : Except Unit (List ApibayItem) → List Torrent
  | Except.error _ => []
  | Except.ok [] => []
  | Except.ok (first :: rest) =>
    if first.id ≠ "0" then ((first :: rest).take 8).map mkApibayTorrent else []

def mkSolidTorrent (item : SolidItem) : Torrent :=
  let meta := parseTorrentName item.title
  { url := item.magnet, hash := item.infoHash,
    quality := if meta.1 = "UNKNOWN" then "HD" else meta.1,
    type := meta.2, seeds := item.swarm.seeders, peers := item.swarm.leechers,
    size := jsToFixed 2 item.size 1073741824 ++ " GB",
    date_uploaded := "Recent" }

/-- SolidTorrents branch: `data.results && data.results.length > 0`. -/
def solidAdapter : Except Unit (Option (List SolidItem)) → List Torrent
  | Except.error _ => []
  | Except.ok none => []
  | Except.ok (some rs) =>
    if 0 < rs.length then (rs.take 8).map mkSolidTorrent else []

/-! ### Aggregation -/

/-- One settled promise, as `Promise.allSettled` reports it. -/
inductive Settled where
  | fulfilled (value : List Torrent)
  | rejected
deriving DecidableEq

/-- The fulfilled-only collection loop over the settled results
(`result.status === 'fulfilled' && Array.isArray(result.value)`; every
value here is an array by construction). -/
def collectSettled (results : List Settled) : List Torrent :=
  results.foldl
    (fun acc r =>
      match r with
      | Settled.fulfilled value => acc ++ value
      | Settled.rejected => acc) []

/-- One step of `new Map(list.map(item => [item.hash, item]))`: `Map.set`
updates the value of an existing key in place, else appends. -/
def insertHash (m : List (String × Torrent)) (k : String) (v : Torrent) :
    List (String × Torrent) :=
  if k ∈ m.map Prod.fst then m.map (fun p => if p.1 = k then (k, v) else p)
  else m ++ [(k, v)]

/-- `Array.from(new Map(l.map(item => [item.hash, item])).values())`:
keys in first-occurrence order, each carrying the last-seen entry. -/
def dedupByHash (l : List Torrent) : List Torrent :=
  (l.foldl (fun m t => insertHash m t.hash t) []).map Prod.snd

/-- Stable insertion of an earlier element into the sorted list of later
elements, for the comparator `(a, b) => b.seeds - a.seeds`: the inserted
element goes before every later element whose seed count is not larger. -/
def insertDesc (t : Torrent) : List Torrent → List Torrent
  | [] => [t]
  | u :: us => if t.seeds < u.seeds then u :: insertDesc t us else t :: u :: us

/-- `Array.prototype.sort((a, b) => b.seeds - a.seeds)`: the unique
stable descending-by-seeds reordering required by the ECMAScript
specification for a consistent comparator. -/
def sortDesc : List Torrent → List Torrent
  | [] => []
  | t :: ts => insertDesc t (sortDesc ts)

/-- The per-call environment: each adapter's parsed response or caught
failure, and the host-dependent date renderer. -/
structure Env where
  yts : Except Unit (Option (List YtsEntry))
  eztv : Except Unit (Option (List EztvEntry))
  apibay : Except Unit (List ApibayItem)
  solid : Except Unit (Option (List SolidItem))
  fmtDate : Int → String

inductive AdapterId where
  | yts
  | eztv
  | apibay
  | solid
deriving DecidableEq

/-- `type === 'tv' && imdbId` and then `if (numericId)` with
`numericId = cleanImdbId(imdbId)`: the guards of the EZTV branch. -/
def eztvInvoked (type : MediaKind) (imdbId : Option String) : Bool :=
  decide (type = MediaKind.tv) &&
    (match imdbId with
     | some s => s != ""
     | none => false) &&
    (match cleanImdbId imdbId with
     | some n => n != ""
     | none => false)

/-- The settled outcomes of the promises `fetchMovieDownloads` pushes, in
push order: YTS iff `type === 'movie'`, EZTV iff its guards hold, then
always APIBay and SolidTorrents.  Each promise fulfills (internal catch),
carrying its adapter's list. -/
def plannedSettled (env : Env) (cleanQuery : String) (type : MediaKind)
    (imdbId : Option String) : List Settled :=
  (if type = MediaKind.movie then [Settled.fulfilled (ytsAdapter env.yts)] else [])
    ++ (if eztvInvoked type imdbId then
          [Settled.fulfilled (eztvAdapter env.fmtDate cleanQuery env.eztv)]
        else [])
    ++ [Settled.fulfilled (apibayAdapter env.apibay),
        Settled.fulfilled (solidAdapter env.solid)]

/-- `fetchMovieDownloads(query, type, imdbId)`: the `!query` early return
(only the empty string is falsy), then collect the settled adapter
results, deduplicate by hash, drop `seeds <= 0`, sort descending. -/
def fetchMovieDownloads (env : Env) (query : String) (type : MediaKind)
    (imdbId : Option String) : List Torrent :=
  if query = "" then []
  else
    let cleanQuery := jsTrim query
    let results := plannedSettled env cleanQuery type imdbId
    let allTorrents := collectSettled results
    let uniqueTorrents := dedupByHash allTorrents
    sortDesc (uniqueTorrents.filter (fun t : Torrent => decide (0 < t.seeds)))

/-- The aggregate list just before the final sort (named so the stability
of the sort can be stated). -/
def aggregatedPreSort (env : Env) (query : String) (type : MediaKind)
    (imdbId : Option String) : List Torrent :=
  if query = "" then []
  else
    (dedupByHash (collectSettled (plannedSettled env (jsTrim query) type imdbId))).filter
      (fun t : Torrent => decide (0 < t.seeds))

/-- Which adapters `fetchMovieDownloads` issues network calls for: none on
the `!query` early return, otherwise exactly the pushed branches. -/
def adaptersInvoked (query : String) (type : MediaKind) (imdbId : Option String) :
    List AdapterId :=
  if query = "" then []
  else
    (if type = MediaKind.movie then [AdapterId.yts] else [])
      ++ (if eztvInvoked type imdbId then [AdapterId.eztv] else [])
      ++ [AdapterId.apibay, AdapterId.solid]

/-- Force the adapters selected by `mask` to fail (network/parse error). -/
def maskFail (mask : AdapterId → Bool) (env : Env) : Env :=
  { yts := if mask AdapterId.yts then Except.error () else env.yts,
    eztv := if mask AdapterId.eztv then Except.error () else env.eztv,
    apibay := if mask AdapterId.apibay then Except.error () else env.apibay,
    solid := if mask AdapterId.solid then Except.error () else env.solid,
    fmtDate := env.fmtDate }

/-- Replace the adapters selected by `mask` by a successful response that
carries no entries. -/
def maskEmptyOk (mask : AdapterId → Bool) (env : Env) : Env :=
  { yts := if mask AdapterId.yts then Except.ok none else env.yts,
    eztv := if mask AdapterId.eztv then Except.ok none else env.eztv,
    apibay := if mask AdapterId.apibay then Except.ok [] else env.apibay,
    solid := if mask AdapterId.solid then Except.ok none else env.solid,
    fmtDate := env.fmtDate }

/-! ### Concrete inputs for the witnesses and counterexamples -/

def fmtConst : Int → String := fun _ => ""

def apItemA : ApibayItem :=
  { id := "1", info_hash := "aaa", name := "Movie.1080p.x264",
    size := 1, seeders := 5, leechers := 2 }

def apItemB : ApibayItem :=
  { id := "2", info_hash := "bbb", name := "Movie.720p",
    size := 2, seeders := 7, leechers := 0 }

def envA : Env :=
  { yts := Except.error (), eztv := Except.error (),
    apibay := Except.ok [apItemA], solid := Except.error (),
    fmtDate := fmtConst }

def envB : Env :=
  { yts := Except.error (), eztv := Except.error (),
    apibay := Except.ok [apItemA, apItemB], solid := Except.error (),
    fmtDate := fmtConst }

/-- APIBay row whose byte count is exactly 1 GiB. -/
def apGibItem : ApibayItem :=
  { id := "1", info_hash := "cc", name := "n",
    size := 1073741824, seeders := 1, leechers := 0 }

/-- APIBay row whose byte count is 2 GiB. -/
def apTwoGibItem : ApibayItem :=
  { id := "1", info_hash := "dd", name := "n",
    size := 2147483648, seeders := 1, leechers := 0 }

def eztvE1 : EztvEntry :=
  { title := "Show.S01E02.HDTV", magnet_url := "m1", hash := "h1",
    seeds := 3, peers := 1, size_bytes := 1048576, date_released_unix := 0 }

def eztvE2 : EztvEntry :=
  { title := "Show.S02E02.HDTV", magnet_url := "m2", hash := "h2",
    seeds := 4, peers := 1, size_bytes := 1048576, date_released_unix := 0 }

/-- EZTV entry of exactly 1.5 MB. -/
def eztvHalf : EztvEntry :=
  { title := "t", magnet_url := "m", hash := "h",
    seeds := 1, peers := 0, size_bytes := 1572864, date_released_unix := 0 }

/-- EZTV entry of exactly 1 MiB. -/
def eztvOneMB : EztvEntry :=
  { title := "u", magnet_url := "m", hash := "h2",
    seeds := 2, peers := 0, size_bytes := 1048576, date_released_unix := 0 }

/-! ### Helper lemmas: suffixes -/

theorem segAt_append_self (p r : List Char) : segAt p (p ++ r) = true := by
  induction p with
  | nil => rfl
  | cons c cs ih => simp [segAt, ih]

theorem strEndsWith_strAppend (a b : String) : strEndsWith (a ++ b) b = true := by
  unfold strEndsWith
  rw [String.data_append, List.reverse_append]
  exact segAt_append_self _ _

theorem strEndsWith_mk_append (a : List Char) (b : String) :
    strEndsWith (String.mk (a ++ b.data)) b = true := by
  unfold strEndsWith
  show segAt b.data.reverse (a ++ b.data).reverse = true
  rw [List.reverse_append]
  exact segAt_append_self _ _

theorem strEndsWith_append_mb_gb (a : String) : strEndsWith (a ++ " MB") " GB" = false := by
  unfold strEndsWith
  rw [String.data_append, List.reverse_append]
  rfl

theorem strEndsWith_append_gb_mb (a : String) : strEndsWith (a ++ " GB") " MB" = false := by
  unfold strEndsWith
  rw [String.data_append, List.reverse_append]
  rfl

/-! ### Helper lemmas: the stable descending sort -/

theorem mem_insertDesc {x t : Torrent} {l : List Torrent} :
    x ∈ insertDesc t l ↔ x = t ∨ x ∈ l := by
  induction l with
  | nil => simp [insertDesc]
  | cons u us ih =>
    simp only [insertDesc]
    split
    · rw [List.mem_cons, ih, List.mem_cons]
      tauto
    · simp [List.mem_cons]

theorem insertDesc_perm (t : Torrent) (l : List Torrent) :
    (insertDesc t l).Perm (t :: l) := by
  induction l with
  | nil => exact List.Perm.refl _
  | cons u us ih =>
    simp only [insertDesc]
    split
    · exact (ih.cons u).trans (List.Perm.swap t u us)
    · exact List.Perm.refl _

theorem sortDesc_perm (l : List Torrent) : (sortDesc l).Perm l := by
  induction l with
  | nil => exact List.Perm.refl _
  | cons t ts ih => exact (insertDesc_perm t (sortDesc ts)).trans (ih.cons t)

theorem mem_sortDesc {x : Torrent} {l : List Torrent} : x ∈ sortDesc l ↔ x ∈ l :=
  (sortDesc_perm l).mem_iff

theorem pairwise_insertDesc {l : List Torrent} (t : Torrent)
    (h : l.Pairwise (fun a b => b.seeds ≤ a.seeds)) :
    (insertDesc t l).Pairwise (fun a b => b.seeds ≤ a.seeds) := by
  induction l with
  | nil => simp [insertDesc]
  | cons u us ih =>
    rcases List.pairwise_cons.1 h with ⟨hu, hus⟩
    simp only [insertDesc]
    split
    · rename_i hlt
      refine List.pairwise_cons.2 ⟨?_, ih hus⟩
      intro x hx
      rcases mem_insertDesc.1 hx with rfl | hx
      · exact le_of_lt hlt
      · exact hu x hx
    · rename_i hge
      refine List.pairwise_cons.2 ⟨?_, h⟩
      intro x hx
      rcases List.mem_cons.1 hx with rfl | hx
      · exact not_lt.1 hge
      · exact le_trans (hu x hx) (not_lt.1 hge)

theorem pairwise_sortDesc (l : List Torrent) :
    (sortDesc l).Pairwise (fun a b => b.seeds ≤ a.seeds) := by
  induction l with
  | nil => simp [sortDesc]
  | cons t ts ih => exact pairwise_insertDesc t ih

theorem filter_insertDesc (c : Int) (t : Torrent) (l : List Torrent) :
    (insertDesc t l).filter (fun x : Torrent => decide (x.seeds = c))
      = if t.seeds = c then t :: l.filter (fun x : Torrent => decide (x.seeds = c))
        else l.filter (fun x : Torrent => decide (x.seeds = c)) := by
  induction l with
  | nil => by_cases ht : t.seeds = c <;> simp [insertDesc, List.filter_cons, ht]
  | cons u us ih =>
    simp only [insertDesc]
    split
    · rename_i hlt
      by_cases ht : t.seeds = c
      · have hu2 : ¬ u.seeds = c := by
          intro hu2
          rw [ht, hu2] at hlt
          exact lt_irrefl c hlt
        simp [List.filter_cons, ih, ht, hu2]
      · simp [List.filter_cons, ih, ht]
    · rename_i hge
      by_cases ht : t.seeds = c <;> simp [List.filter_cons, ht]

theorem filter_sortDesc (c : Int) (l : List Torrent) :
    (sortDesc l).filter (fun x : Torrent => decide (x.seeds = c))
      = l.filter (fun x : Torrent => decide (x.seeds = c)) := by
  induction l with
  | nil => rfl
  | cons t ts ih =>
    simp only [sortDesc]
    rw [filter_insertDesc]
    by_cases ht : t.seeds = c <;> simp [List.filter_cons, ht, ih]

/-! ### Helper lemmas: deduplication by hash -/

theorem keys_insertHash (m : List (String × Torrent)) (k : String) (v : Torrent) :
    (insertHash m k v).map Prod.fst
      = if k ∈ m.map Prod.fst then m.map Prod.fst else m.map Prod.fst ++ [k] := by
  unfold insertHash
  split
  · rename_i hk
    rw [List.map_map]
    refine List.map_congr_left ?_
    intro p _
    by_cases hp : p.1 = k
    · simp [Function.comp, hp]
    · simp [Function.comp, hp]
  · rename_i hk
    rw [List.map_append]
    rfl

theorem nodup_keys_insertHash {m : List (String × Torrent)} (k : String) (v : Torrent)
    (h : (m.map Prod.fst).Nodup) : ((insertHash m k v).map Prod.fst).Nodup := by
  rw [keys_insertHash]
  split
  · exact h
  · rename_i hk
    rw [List.nodup_append]
    refine ⟨h, List.nodup_singleton k, ?_⟩
    intro a ha hak
    rw [List.mem_singleton] at hak
    exact hk (hak ▸ ha)

theorem mem_keys_insertHash (m : List (String × Torrent)) (k : String) (v : Torrent)
    (a : String) :
    a ∈ (insertHash m k v).map Prod.fst ↔ a ∈ m.map Prod.fst ∨ a = k := by
  rw [keys_insertHash]
  split
  · rename_i hk
    constructor
    · exact fun h => Or.inl h
    · rintro (h | rfl)
      · exact h
      · exact hk
  · simp [List.mem_append]

theorem snd_hash_foldl (l : List Torrent) (m : List (String × Torrent))
    (h : ∀ p ∈ m, (Prod.snd p).hash = p.1) :
    ∀ p ∈ l.foldl (fun m t => insertHash m t.hash t) m, (Prod.snd p).hash = p.1 := by
  induction l generalizing m with
  | nil => exact h
  | cons t ts ih =>
    rw [List.foldl_cons]
    refine ih _ ?_
    intro p hp
    unfold insertHash at hp
    split at hp
    · rcases List.mem_map.1 hp with ⟨q, hq, rfl⟩
      by_cases hq1 : q.1 = t.hash
      · simp [hq1]
      · simp only [if_neg hq1]
        exact h q hq
    · rcases List.mem_append.1 hp with hp | hp
      · exact h p hp
      · rw [List.mem_singleton] at hp
        subst hp
        rfl

theorem nodup_keys_foldl (l : List Torrent) (m : List (String × Torrent))
    (h : (m.map Prod.fst).Nodup) :
    ((l.foldl (fun m t => insertHash m t.hash t) m).map Prod.fst).Nodup := by
  induction l generalizing m with
  | nil => exact h
  | cons t ts ih =>
    rw [List.foldl_cons]
    exact ih _ (nodup_keys_insertHash _ _ h)

theorem mem_keys_foldl (l : List Torrent) (m : List (String × Torrent)) (a : String) :
    a ∈ (l.foldl (fun m t => insertHash m t.hash t) m).map Prod.fst
      ↔ a ∈ m.map Prod.fst ∨ a ∈ l.map Torrent.hash := by
  induction l generalizing m with
  | nil => simp
  | cons t ts ih =>
    rw [List.foldl_cons, ih, mem_keys_insertHash]
    simp only [List.map_cons, List.mem_cons]
    tauto

theorem map_hash_dedupByHash (l : List Torrent) :
    (dedupByHash l).map Torrent.hash
      = (l.foldl (fun m t => insertHash m t.hash t) []).map Prod.fst := by
  unfold dedupByHash
  rw [List.map_map]
  refine List.map_congr_left ?_
  intro p hp
  have := snd_hash_foldl l [] (by intro p hp; exact absurd hp (List.not_mem_nil p)) p hp
  simpa [Function.comp] using this

theorem nodup_hash_dedupByHash (l : List Torrent) :
    ((dedupByHash l).map Torrent.hash).Nodup := by
  rw [map_hash_dedupByHash]
  exact nodup_keys_foldl l [] (by simp)

theorem mem_hash_dedupByHash (l : List Torrent) (a : String) :
    a ∈ (dedupByHash l).map Torrent.hash ↔ a ∈ l.map Torrent.hash := by
  rw [map_hash_dedupByHash, mem_keys_foldl]
  simp

theorem length_dedupByHash (l : List Torrent) :
    (dedupByHash l).length = ((l.map Torrent.hash).dedup).length := by
  have h1 := nodup_hash_dedupByHash l
  have hsub1 : (dedupByHash l).map Torrent.hash ⊆ (l.map Torrent.hash).dedup := by
    intro a ha
    exact List.mem_dedup.2 ((mem_hash_dedupByHash l a).1 ha)
  have hsub2 : (l.map Torrent.hash).dedup ⊆ (dedupByHash l).map Torrent.hash := by
    intro a ha
    exact (mem_hash_dedupByHash l a).2 (List.mem_dedup.1 ha)
  have hle1 := (List.subperm_of_subset h1 hsub1).length_le
  have hle2 := (List.subperm_of_subset (List.nodup_dedup _) hsub2).length_le
  have hlen := Nat.le_antisymm hle1 hle2
  rwa [List.length_map] at hlen

/-! ### Helper lemmas: the aggregation call -/

theorem empty_strAppend (s : String) : "" ++ s = s := rfl

theorem fetch_eq_sortDesc_pre (env : Env) (query : String) (type : MediaKind)
    (imdbId : Option String) :
    fetchMovieDownloads env query type imdbId
      = sortDesc (aggregatedPreSort env query type imdbId) := by
  by_cases h : query = "" <;> simp [fetchMovieDownloads, aggregatedPreSort, h, sortDesc]

theorem plannedSettled_maskFail_maskEmptyOk (mask : AdapterId → Bool) (env : Env)
    (cleanQuery : String) (type : MediaKind) (imdbId : Option String) :
    plannedSettled (maskFail mask env) cleanQuery type imdbId
      = plannedSettled (maskEmptyOk mask env) cleanQuery type imdbId := by
  unfold plannedSettled maskFail maskEmptyOk
  cases hy : mask AdapterId.yts <;> cases he : mask AdapterId.eztv <;>
    cases ha : mask AdapterId.apibay <;> cases hs : mask AdapterId.solid <;>
      simp [hy, he, ha, hs, ytsAdapter, eztvAdapter, apibayAdapter, solidAdapter]

theorem remap_ne_unknown (q : String) :
    (if q = "UNKNOWN" then "HD" else q) ≠ "UNKNOWN" := by
  by_cases h : q = "UNKNOWN"
  · rw [if_pos h]
    decide
  · rw [if_neg h]
    exact h

theorem jsToFixed_zero_nonneg (num : Int) (den : Nat) (h : 0 ≤ num) :
    jsToFixed 0 num den = toString ((2 * num.natAbs + den) / (2 * den)) := by
  simp [jsToFixed, not_lt.2 h, empty_strAppend, pow_zero, mul_one]

/-! ### The claims -/

/-- Claim C1: the aggregation call always resolves (it is a total function
of the settled adapter outcomes); an adapter whose network, parse or shape
step fails contributes exactly what a successful empty response would, so
for any failing subset the call returns the deduplicated, filtered, sorted
union of the succeeding adapters' results, and the empty list when every
adapter fails. -/
theorem fetchMovieDownloads_failure_tolerance (mask : AdapterId → Bool) (env : Env)
    (query : String) (type : MediaKind) (imdbId : Option String) :
    fetchMovieDownloads (maskFail mask env) query type imdbId
        = fetchMovieDownloads (maskEmptyOk mask env) query type imdbId
      ∧ fetchMovieDownloads (maskFail (fun _ => true) env) query type imdbId = [] := by
  constructor
  · simp only [fetchMovieDownloads]
    rw [plannedSettled_maskFail_maskEmptyOk]
  · simp only [fetchMovieDownloads]
    split
    · rfl
    · cases type with
      | movie => rfl
      | tv =>
        cases imdbId with
        | none => rfl
        | some s =>
          cases hEz : eztvInvoked MediaKind.tv (some s) <;>
            simp [plannedSettled, maskFail, hEz, collectSettled, dedupByHash,
              sortDesc, ytsAdapter, eztvAdapter, apibayAdapter, solidAdapter]

/-- Claim C2: every candidate returned by fetchMovieDownloads has strictly
positive seeds; candidates with seeds less than or equal to zero are dropped
by the availability filter. -/
theorem fetchMovieDownloads_seeds_pos (env : Env) (query : String) (type : MediaKind)
    (imdbId : Option String) (t : Torrent)
    (ht : t ∈ fetchMovieDownloads env query type imdbId) : 0 < t.seeds := by
  rw [fetch_eq_sortDesc_pre, mem_sortDesc] at ht
  unfold aggregatedPreSort at ht
  split at ht
  · exact absurd ht (List.not_mem_nil t)
  · exact of_decide_eq_true (List.mem_filter.1 ht).2

theorem fetchMovieDownloads_seeds_pos_witness :
    (0 : Int) < (mkApibayTorrent apItemA).seeds :=
  fetchMovieDownloads_seeds_pos envA "m" MediaKind.movie none (mkApibayTorrent apItemA)
    (by decide)

/-- Claim C3: the returned list is sorted by descending seeds (for
positions i < j the seed count at j is at most the one at i), and the sort
is stable: for every seed value the entries carrying it appear in the same
order as in the post-filter list. -/
theorem fetchMovieDownloads_sorted_stable (env : Env) (query : String) (type : MediaKind)
    (imdbId : Option String) :
    (∀ (i j : Nat) (hi : i < (fetchMovieDownloads env query type imdbId).length)
        (hj : j < (fetchMovieDownloads env query type imdbId).length), i < j →
        ((fetchMovieDownloads env query type imdbId).get ⟨j, hj⟩).seeds
          ≤ ((fetchMovieDownloads env query type imdbId).get ⟨i, hi⟩).seeds)
    ∧ ∀ c : Int,
        (fetchMovieDownloads env query type imdbId).filter
            (fun x : Torrent => decide (x.seeds = c))
          = (aggregatedPreSort env query type imdbId).filter
              (fun x : Torrent => decide (x.seeds = c)) := by
  constructor
  · intro i j hi hj hij
    have hp : (fetchMovieDownloads env query type imdbId).Pairwise
        (fun a b => b.seeds ≤ a.seeds) := by
      rw [fetch_eq_sortDesc_pre]
      exact pairwise_sortDesc _
    exact List.pairwise_iff_get.1 hp ⟨i, hi⟩ ⟨j, hj⟩ hij
  · intro c
    rw [fetch_eq_sortDesc_pre, filter_sortDesc]

theorem fetchMovieDownloads_sorted_stable_witness :
    ((fetchMovieDownloads envB "m" MediaKind.movie none).get ⟨1, by decide⟩).seeds
      ≤ ((fetchMovieDownloads envB "m" MediaKind.movie none).get ⟨0, by decide⟩).seeds :=
  (fetchMovieDownloads_sorted_stable envB "m" MediaKind.movie none).1 0 1
    (by decide) (by decide) (by decide)

/-- Claim C4: deduplication by hash is exact: on any concatenated adapter
output it keeps exactly one entry per distinct hash (as many entries as
distinct hash values), and the hash values of every returned result set
are pairwise distinct. -/
theorem dedupByHash_exact (l : List Torrent) (env : Env) (query : String)
    (type : MediaKind) (imdbId : Option String) :
    ((dedupByHash l).map Torrent.hash).Nodup
    ∧ (dedupByHash l).length = ((l.map Torrent.hash).dedup).length
    ∧ ((fetchMovieDownloads env query type imdbId).map Torrent.hash).Nodup := by
  refine ⟨nodup_hash_dedupByHash l, length_dedupByHash l, ?_⟩
  rw [fetch_eq_sortDesc_pre]
  have hnd : ((aggregatedPreSort env query type imdbId).map Torrent.hash).Nodup := by
    unfold aggregatedPreSort
    split
    · simp
    · exact ((List.filter_sublist _).map Torrent.hash).nodup (nodup_hash_dedupByHash _)
  exact ((sortDesc_perm _).map Torrent.hash).nodup_iff.2 hnd

/-- Claim C5: when the cleaned query matches the season/episode pattern
with captured digit runs s and e, every candidate the EZTV adapter emits
comes from an entry whose raw title contains the literal pattern SsEe
case-insensitively, and the post-filter runs before the slice(0, 8) cap. -/
theorem eztvAdapter_season_episode_filter (fmtDate : Int → String) (cleanQuery : String)
    (entries : List EztvEntry) (s e : List Char)
    (hm : matchSE cleanQuery.data = some (s, e)) :
    (∀ t ∈ eztvAdapter fmtDate cleanQuery (Except.ok (some entries)),
        ∃ en, en ∈ entries ∧ seTest s e en.title = true ∧ t = mkEztvTorrent fmtDate en)
    ∧ eztvAdapter fmtDate cleanQuery (Except.ok (some entries))
        = ((entries.filter (fun t : EztvEntry => seTest s e t.title)).take 8).map
            (mkEztvTorrent fmtDate) := by
  have hb : eztvAdapter fmtDate cleanQuery (Except.ok (some entries))
      = ((entries.filter (fun t : EztvEntry => seTest s e t.title)).take 8).map
          (mkEztvTorrent fmtDate) := by
    simp [eztvAdapter, hm]
  refine ⟨?_, hb⟩
  intro t ht
  rw [hb] at ht
  rcases List.mem_map.1 ht with ⟨en, hen, rfl⟩
  rcases List.mem_filter.1 (List.take_subset 8 _ hen) with ⟨h3, h4⟩
  exact ⟨en, h3, h4, rfl⟩

theorem eztvAdapter_season_episode_filter_witness :
    ∃ en, en ∈ [eztvE1, eztvE2] ∧ seTest ['0', '1'] ['0', '2'] en.title = true
      ∧ mkEztvTorrent fmtConst eztvE1 = mkEztvTorrent fmtConst en :=
  (eztvAdapter_season_episode_filter fmtConst "Show S01E02" [eztvE1, eztvE2]
      ['0', '1'] ['0', '2'] (by decide)).1 (mkEztvTorrent fmtConst eztvE1) (by decide)

/-- Claim C6, counterexample: a whitespace-only query is not caught by the
falsy-query early return: it is blank (trims to the empty string), yet the
call still issues network calls to the general adapters. -/
theorem blank_query_invokes_adapters :
    jsTrim " " = "" ∧ adaptersInvoked " " MediaKind.movie none ≠ [] := by
  refine ⟨by decide, by decide⟩

/-- Claim C6, amended: only the exactly-empty query fails fast, returning
the empty list without invoking any adapter. -/
theorem empty_query_fail_fast (env : Env) (type : MediaKind) (imdbId : Option String) :
    fetchMovieDownloads env "" type imdbId = [] ∧ adaptersInvoked "" type imdbId = [] := by
  constructor
  · simp [fetchMovieDownloads]
  · simp [adaptersInvoked]

/-- Claim C7, counterexample: the encoding tag of an x264 release ends in
the upper-cased " (X264)", not the claimed lower-cased " (x264)", because
the source upper-cases the whole type string, codec suffix included. -/
theorem parseTorrentName_x264_uppercased :
    (parseTorrentName "Movie.x264").2 = "WEBRIP (X264)"
    ∧ strEndsWith (parseTorrentName "Movie.x264").2 " (x264)" = false := by
  refine ⟨by decide, by decide⟩

/-- Claim C7, amended: a name matching x265 or hevc gets the suffix
" (HEVC)" regardless of x264; a name matching x264 but neither x265 nor
hevc gets the upper-cased suffix " (X264)". -/
theorem parseTorrentName_codec_suffix (name : String) :
    (hasAlt hevcAlts name.data = true →
        strEndsWith (parseTorrentName name).2 " (HEVC)" = true)
    ∧ (hasAlt hevcAlts name.data = false → hasAlt x264Alts name.data = true →
        strEndsWith (parseTorrentName name).2 " (X264)" = true) := by
  constructor
  · intro h
    have hq : (parseTorrentName name).2
        = String.mk ((((findAlt typeAlts name.data).getD "WEBRip".data)
            ++ " (HEVC)".data).map ucChar) := by
      simp [parseTorrentName, h]
    rw [hq, List.map_append]
    have hmap : " (HEVC)".data.map ucChar = " (HEVC)".data := by decide
    rw [hmap]
    exact strEndsWith_mk_append _ _
  · intro h1 h2
    have hq : (parseTorrentName name).2
        = String.mk ((((findAlt typeAlts name.data).getD "WEBRip".data)
            ++ " (x264)".data).map ucChar) := by
      simp [parseTorrentName, h1, h2]
    rw [hq, List.map_append]
    have hmap : " (x264)".data.map ucChar = " (X264)".data := by decide
    rw [hmap]
    exact strEndsWith_mk_append _ _

theorem parseTorrentName_codec_suffix_witness :
    strEndsWith (parseTorrentName "a.x265").2 " (HEVC)" = true
    ∧ strEndsWith (parseTorrentName "b.x264").2 " (X264)" = true :=
  ⟨(parseTorrentName_codec_suffix "a.x265").1 (by decide),
   (parseTorrentName_codec_suffix "b.x264").2 (by decide) (by decide)⟩

/-- Claim C8, counterexample: a byte count of exactly 1073741824 is
formatted in megabytes ("1024.00 MB"), not in gigabytes, because the
source compares with a strict greater-than. -/
theorem apibay_gib_boundary_mb :
    (mkApibayTorrent apGibItem).size = "1024.00 MB"
    ∧ strEndsWith (mkApibayTorrent apGibItem).size " GB" = false := by
  refine ⟨by decide, by decide⟩

/-- Claim C8, amended: an APIBay entry's size label is expressed in GB
with two decimals exactly when the byte count is strictly greater than
1073741824, and in MB with two decimals otherwise. -/
theorem apibay_size_unit (item : ApibayItem) :
    (strEndsWith (mkApibayTorrent item).size " GB" = true ↔ 1073741824 < item.size)
    ∧ (strEndsWith (mkApibayTorrent item).size " MB" = true ↔ ¬ 1073741824 < item.size) := by
  have hsize : (mkApibayTorrent item).size
      = if 1073741824 < item.size then jsToFixed 2 item.size 1073741824 ++ " GB"
        else jsToFixed 2 item.size 1048576 ++ " MB" := rfl
  by_cases h : 1073741824 < item.size
  · rw [hsize, if_pos h]
    constructor
    · simp [strEndsWith_strAppend, h]
    · simp [strEndsWith_append_gb_mb, h]
  · rw [hsize, if_neg h]
    constructor
    · simp [strEndsWith_append_mb_gb, h]
    · simp [strEndsWith_strAppend, h]

theorem apibay_size_unit_witness :
    strEndsWith (mkApibayTorrent apTwoGibItem).size " GB" = true :=
  (apibay_size_unit apTwoGibItem).1.mpr (by decide)

/-- Claim C9, counterexample: the EZTV size label uses zero decimal
places (toFixed(0)), not one: a 1.5 MB entry renders as "2 MB" (no
decimal point at all), where a one-decimal rendering would be "1.5 MB". -/
theorem eztv_size_zero_decimals :
    (mkEztvTorrent fmtConst eztvHalf).size = "2 MB"
    ∧ ("2 MB").data.contains '.' = false
    ∧ jsToFixed 1 1572864 1048576 ++ " MB" = "1.5 MB" := by
  refine ⟨by decide, by decide, by decide⟩

/-- Claim C9, amended: the EZTV size label is the byte count converted to
megabytes rounded to the nearest integer (ties up), no decimal places,
suffixed " MB". -/
theorem eztv_size_integer_mb (fmtDate : Int → String) (t : EztvEntry)
    (h : 0 ≤ t.size_bytes) :
    (mkEztvTorrent fmtDate t).size
      = toString ((2 * t.size_bytes.natAbs + 1048576) / 2097152) ++ " MB"
    ∧ strEndsWith (mkEztvTorrent fmtDate t).size " MB" = true := by
  have hsz : (mkEztvTorrent fmtDate t).size
      = jsToFixed 0 t.size_bytes 1048576 ++ " MB" := rfl
  constructor
  · rw [hsz, jsToFixed_zero_nonneg _ _ h]
  · rw [hsz]
    exact strEndsWith_strAppend _ _

theorem eztv_size_integer_mb_witness :
    (mkEztvTorrent fmtConst eztvOneMB).size
        = toString ((2 * eztvOneMB.size_bytes.natAbs + 1048576) / 2097152) ++ " MB"
    ∧ strEndsWith (mkEztvTorrent fmtConst eztvOneMB).size " MB" = true :=
  eztv_size_integer_mb fmtConst eztvOneMB (by decide)

/-- Claim C10: every candidate emitted by the APIBay, SolidTorrents and
EZTV adapters (the three that derive quality via the title parser) has
quality different from "UNKNOWN": each remaps the parser's UNKNOWN to
"HD". -/
theorem adapters_quality_known (ra : Except Unit (List ApibayItem))
    (rs : Except Unit (Option (List SolidItem)))
    (re : Except Unit (Option (List EztvEntry)))
    (fmtDate : Int → String) (cleanQuery : String) :
    (∀ t ∈ apibayAdapter ra, t.quality ≠ "UNKNOWN")
    ∧ (∀ t ∈ solidAdapter rs, t.quality ≠ "UNKNOWN")
    ∧ (∀ t ∈ eztvAdapter fmtDate cleanQuery re, t.quality ≠ "UNKNOWN") := by
  refine ⟨?_, ?_, ?_⟩
  · intro t ht
    cases ra with
    | error u => exact absurd ht (List.not_mem_nil t)
    | ok results =>
      cases results with
      | nil => exact absurd ht (List.not_mem_nil t)
      | cons first rest =>
        simp only [apibayAdapter] at ht
        split at ht
        · rcases List.mem_map.1 ht with ⟨item, _, rfl⟩
          exact remap_ne_unknown _
        · exact absurd ht (List.not_mem_nil t)
  · intro t ht
    cases rs with
    | error u => exact absurd ht (List.not_mem_nil t)
    | ok results =>
      cases results with
      | none => exact absurd ht (List.not_mem_nil t)
      | some items =>
        simp only [solidAdapter] at ht
        split at ht
        · rcases List.mem_map.1 ht with ⟨item, _, rfl⟩
          exact remap_ne_unknown _
        · exact absurd ht (List.not_mem_nil t)
  · intro t ht
    cases re with
    | error u => exact absurd ht (List.not_mem_nil t)
    | ok results =>
      cases results with
      | none => exact absurd ht (List.not_mem_nil t)
      | some items =>
        simp only [eztvAdapter] at ht
        rcases List.mem_map.1 ht with ⟨en, _, rfl⟩
        exact remap_ne_unknown _

theorem adapters_quality_known_witness :
    (mkApibayTorrent apItemA).quality ≠ "UNKNOWN" :=
  (adapters_quality_known (Except.ok [apItemA]) (Except.error ()) (Except.error ())
      fmtConst "").1 (mkApibayTorrent apItemA) (by decide)

end CineFlix
